import Mathlib

/-!
Verification of the SGML2SQL extraction and classification core.

The definitions below are shallow embeddings of the Python functions in
`21_sgml2rawdata.py`, `31_rawdata2women.py` and `32_label_women_risk.py`:
an XML element tree (`Elem`) mirrors `xml.etree.ElementTree.Element`
(tag, attributes, direct text, ordered children, tail text), and each
extraction function is translated clause by clause from its source.
-/

namespace SGML

/-- The characters Python's `str.isspace` / regex `\s` treat as whitespace
(`str.strip()` with no argument strips exactly these). -/
def isPySpace (c : Char) : Bool :=
  c = ' ' || c = '\t' || c = '\n' || c = '\r' || c = '\x0b' || c = '\x0c' ||
  c = '\u001c' || c = '\u001d' || c = '\u001e' || c = '\u001f' ||
  c = '\u0085' || c = '\u00a0' || c = '\u1680' ||
  ('\u2000' ≤ c && c ≤ '\u200a') ||
  c = '\u2028' || c = '\u2029' || c = '\u202f' || c = '\u205f' || c = '\u3000'

/-- Python `str.strip()`: drop leading and trailing whitespace. -/
def pyStrip (s : String) : String :=
  ⟨((s.data.dropWhile isPySpace).reverse.dropWhile isPySpace).reverse⟩

/-- `t` begins with `p` (character-list prefix test). -/
def listBeginsWith : List Char → List Char → Bool
  | _, [] => true
  | [], _ :: _ => false
  | c :: cs, d :: ds => c == d && listBeginsWith cs ds

/-- Python `s.startswith(t)`. -/
def strBeginsWith (s t : String) : Bool := listBeginsWith s.data t.data

/-- Python `s.endswith(t)`. -/
def strFinishesWith (s t : String) : Bool := listBeginsWith s.data.reverse t.data.reverse

/-- Drop the first `n` characters. -/
def strDropFirst (s : String) (n : Nat) : String := ⟨s.data.drop n⟩

/-- Drop the last `n` characters. -/
def strDropLast (s : String) (n : Nat) : String := ⟨s.data.reverse.drop n |>.reverse⟩

/-- Python `s.replace(pat, rep)` on character lists: non-overlapping,
left to right. Fuel is the input length; each step consumes at least one
character (the patterns used are non-empty), so it never runs out. -/
def replaceFuel (pat rep : List Char) : Nat → List Char → List Char
  | 0, l => l
  | _ + 1, [] => []
  | fuel + 1, c :: rest =>
    if listBeginsWith (c :: rest) pat then
      rep ++ replaceFuel pat rep fuel ((c :: rest).drop pat.length)
    else c :: replaceFuel pat rep fuel rest

/-- Python `s.replace(pat, rep)`. -/
def strReplace (s pat rep : String) : String :=
  ⟨replaceFuel pat.data rep.data s.data.length s.data⟩

/-- Python `s.lower()` (the attribute values compared here are ASCII). -/
def strLower (s : String) : String := ⟨s.data.map Char.toLower⟩

/-- A parsed XML element, as `xml.etree.ElementTree` presents it: qualified
tag, attribute mapping, optional direct text, ordered children, and the
optional tail text that follows the element. -/
inductive Elem where
  | mk (tag : String) (attrib : List (String × String)) (text : Option String)
       (children : List Elem) (tail : Option String)

def Elem.tag : Elem → String
  | .mk t _ _ _ _ => t

def Elem.attrib : Elem → List (String × String)
  | .mk _ a _ _ _ => a

def Elem.text : Elem → Option String
  | .mk _ _ tx _ _ => tx

def Elem.children : Elem → List Elem
  | .mk _ _ _ cs _ => cs

def Elem.tail : Elem → Option String
  | .mk _ _ _ _ tl => tl

/-- `el.attrib.get(k)`. -/
def attrGet (e : Elem) (k : String) : Option String :=
  e.attrib.lookup k

mutual

/-- `"".join(el.itertext())`: the element's text, then for each child its
`itertext` followed by the child's tail. -/
def itertext : Elem → String
  | .mk _ _ tx cs _ => tx.getD "" ++ itertextList cs

def itertextList : List Elem → String
  | [] => ""
  | c :: cs => itertext c ++ c.tail.getD "" ++ itertextList cs

end

mutual

/-- `el.iter()`: the element followed by its descendants in preorder
(depth-first document order). -/
def subtreePre : Elem → List Elem
  | .mk t a tx cs tl => .mk t a tx cs tl :: subtreeListPre cs

def subtreeListPre : List Elem → List Elem
  | [] => []
  | c :: cs => subtreePre c ++ subtreeListPre cs

end

/-- All proper descendants of an element in preorder: what an ElementTree
`//` path step walks under the element. -/
def descendantsOf : Elem → List Elem
  | .mk _ _ _ cs _ => subtreeListPre cs

/-- `el.findall(tag)` for a single-step path: matching direct children in
document order. -/
def findall1 (e : Elem) (t : String) : List Elem :=
  e.children.filter (fun c => c.tag == t)

/-- `el.find(tag)`: first matching direct child. -/
def find1 (e : Elem) (t : String) : Option Elem :=
  (findall1 e t).head?

/-- `el.findall("a/b")`. -/
def findall2 (e : Elem) (t1 t2 : String) : List Elem :=
  (findall1 e t1).flatMap (fun c => findall1 c t2)

/-- `el.find("a/b")`. -/
def find2 (e : Elem) (t1 t2 : String) : Option Elem :=
  (findall2 e t1 t2).head?

/-- `el.findall("a/b/c")`. -/
def findall3 (e : Elem) (t1 t2 t3 : String) : List Elem :=
  (findall2 e t1 t2).flatMap (fun c => findall1 c t3)

/-- `el.findall("a/b//c")`: under every `a/b`, all descendants tagged `c`,
in document order. -/
def findallDesc (e : Elem) (t1 t2 t3 : String) : List Elem :=
  (findall2 e t1 t2).flatMap (fun c => (descendantsOf c).filter (fun d => d.tag == t3))

-- ============ namespaces of 21_sgml2rawdata.py ============

def PI_NS : String :=
  "http://info.pmda.go.jp/namespace/prescription_drugs/package_insert/1.0"

def XMLNS : String := "http://www.w3.org/XML/1998/namespace"

/-- The qualified tag ElementTree gives a `pi:`-prefixed name. -/
def piTag (s : String) : String := "\x7b" ++ PI_NS ++ "\x7d" ++ s

/-- The qualified attribute key for `xml:lang`. -/
def xmlLangKey : String := "\x7b" ++ XMLNS ++ "\x7d" ++ "lang"

/-- Shared by several source functions: `el.text` if truthy, stripped,
`None` if the stripped text is empty. -/
def stripOrNone (tx : Option String) : Option String :=
  match tx with
  | none => none
  | some t =>
    if t = "" then none
    else
      let s := pyStrip t
      if s = "" then none else some s

/-- `get_text_direct` of 21_sgml2rawdata.py. -/
def get_text_direct (el : Option Elem) : Option String :=
  match el with
  | none => none
  | some e => stripOrNone e.text

/-- `get_text` of 21_sgml2rawdata.py, for the single-step paths it is
called with in the interaction extractor. -/
def get_text1 (node : Option Elem) (t : String) : Option String :=
  match node with
  | none => none
  | some n =>
    match find1 n t with
    | none => none
    | some el => stripOrNone el.text

/-- `text_ja` of 21_sgml2rawdata.py: first `Lang` child whose `xml:lang`
equals `"ja"` and whose direct text strips to non-empty; else the
element's own direct text. -/
def text_ja (detail_elem : Option Elem) : Option String :=
  match detail_elem with
  | none => none
  | some el =>
    match (findall1 el (piTag "Lang")).findSome? (fun lang =>
        if attrGet lang xmlLangKey == some "ja" then stripOrNone lang.text else none) with
    | some s => some s
    | none => stripOrNone el.text

/-- `lang_text_all` of 21_sgml2rawdata.py: first `Lang` child whose
`xml:lang` equals `"ja"`, taking the stripped full-subtree text
(`itertext`); no fallback. -/
def lang_text_all (detail_elem : Option Elem) : Option String :=
  match detail_elem with
  | none => none
  | some el =>
    (findall1 el (piTag "Lang")).findSome? (fun lang =>
      if attrGet lang xmlLangKey == some "ja" then
        let t := pyStrip (itertext lang)
        if t = "" then none else some t
      else none)

-- ============ partner label normalization (21_sgml2rawdata.py) ============

/-- The character class `[、，,\s]` of `normalize_partner_label`'s edge
cleanup regexes. -/
def isCommaOrSpace (c : Char) : Bool :=
  c = '、' || c = '，' || c = ',' || isPySpace c

/-- `s.strip()` followed by `re.sub(r'^[、，,\s]+', '', s)` and
`re.sub(r'[、，,\s]+$', '', s)`: one combined pass dropping the class at
both edges (plain `strip` only removes a subset of the class). -/
def trimEdges (s : String) : String :=
  ⟨((s.data.dropWhile isCommaOrSpace).reverse.dropWhile isCommaOrSpace).reverse⟩

/-- `re.sub(r'(等|など)$', '', s)`: the two noise tokens end in distinct
characters, so at most one of the two branches fires. -/
def dropTrailingEtc (s : String) : String :=
  if strFinishesWith s "など" then strDropLast s 2
  else if strFinishesWith s "等" then strDropLast s 1
  else s

/-- `re.sub(r'^(等|など)', '', s)`. -/
def dropLeadingEtc (s : String) : String :=
  if strBeginsWith s "等" then strDropFirst s 1
  else if strBeginsWith s "など" then strDropFirst s 2
  else s

/-- `normalize_partner_label` of 21_sgml2rawdata.py. -/
def normalize_partner_label (s? : Option String) : Option String :=
  match s? with
  | none => none
  | some s0 =>
    if s0 = "" then none
    else
      let s1 := trimEdges s0
      if s1 = "" then none
      else if s1 == "等" || s1 == "など" then none
      else
        let s2 := pyStrip (dropTrailingEtc s1)
        let s3 := pyStrip (dropLeadingEtc s2)
        if s3 = "" then none else some s3

/-- Python `a or b` on two optional strings that are `None` or non-empty. -/
def orElseOpt (a b : Option String) : Option String :=
  match a with
  | some v => some v
  | none => b

/-- `detail_text_full` of 21_sgml2rawdata.py. -/
def detail_text_full (detail_el : Option Elem) : Option String :=
  match detail_el with
  | none => none
  | some el =>
    match orElseOpt (lang_text_all (some el))
        (orElseOpt (text_ja (some el)) (get_text_direct (some el))) with
    | none => none
    | some v => normalize_partner_label (some (pyStrip v))

-- ============ dedup loops (21_sgml2rawdata.py / 31_rawdata2women.py) ============

/-- The `seen`/`out` accumulation loop shared by the item dedup of
`extract_partner_group_and_items` and `uniq` of 31_rawdata2women.py. -/
def uniqLoop (seen out : List String) : List String → List String
  | [] => out
  | s :: rest =>
    if seen.contains s then uniqLoop seen out rest
    else uniqLoop (s :: seen) (out ++ [s]) rest

/-- `uniq` of 31_rawdata2women.py (also the inline dedup loop of
`extract_partner_group_and_items`). -/
def uniq (seq : List String) : List String := uniqLoop [] [] seq

-- ============ partner/group extraction (21_sgml2rawdata.py) ============

/-- `extract_partner_group_and_items` of 21_sgml2rawdata.py: the class
label is the first `DrugName` direct `Detail` whose `detail_text_full` is
non-absent; items are the normalized `SimpleList/Item/Detail` texts,
deduplicated. -/
def extract_partner_group_and_items (drug_elem : Elem) : Option String × List String :=
  match find1 drug_elem (piTag "DrugName") with
  | none => (none, [])
  | some dn =>
    let class_label :=
      (findall1 dn (piTag "Detail")).findSome? (fun det => detail_text_full (some det))
    let items :=
      (findall3 dn (piTag "SimpleList") (piTag "Item") (piTag "Detail")).filterMap
        (fun it => detail_text_full (some it))
    (class_label, uniq items)

-- ============ interaction flattening (21_sgml2rawdata.py) ============

/-- `get_symptoms_and_mechanism` inside `collect_interactions_flat`. -/
def get_symptoms_and_mechanism (drug : Elem) : Option String × Option String :=
  let sd := find2 drug (piTag "ClinSymptomsAndMeasures") (piTag "Detail")
  let md := find2 drug (piTag "MechanismAndRiskFactors") (piTag "Detail")
  (orElseOpt (lang_text_all sd)
     (orElseOpt (text_ja sd) (get_text1 (some drug) (piTag "ClinSymptomsAndMeasures"))),
   orElseOpt (lang_text_all md)
     (orElseOpt (text_ja md) (get_text1 (some drug) (piTag "MechanismAndRiskFactors"))))

/-- One flattened interaction row of `collect_interactions_flat`. -/
structure InteractionRecord where
  partner : String
  group : Option String
  symptoms : Option String
  mechanism : Option String
  category : String
deriving DecidableEq, Repr

/-- The per-`Drug` emission step of `collect_interactions_flat`: one record
per item when items exist, one class-label record when only the label
exists, nothing otherwise. -/
def recordsForDrug (category : String) (drug : Elem) : List InteractionRecord :=
  let gi := extract_partner_group_and_items drug
  let sm := get_symptoms_and_mechanism drug
  match gi.2 with
  | [] =>
    match gi.1 with
    | some g => [⟨g, some g, sm.1, sm.2, category⟩]
    | none => []
  | p :: ps => (p :: ps).map (fun q => ⟨q, gi.1, sm.1, sm.2, category⟩)

/-- The `Drug` blocks walked by
`root.findall("pi:Interactions/pi:<secName>//pi:Drug")`, in document order. -/
def drugsUnder (root : Elem) (secName : String) : List Elem :=
  findallDesc root (piTag "Interactions") (piTag secName) (piTag "Drug")

/-- The `summary_parts` loop of `collect_interactions_flat`. -/
def collect_summary (root : Elem) : List String :=
  (findallDesc root (piTag "Interactions") (piTag "SummaryOfCombination") (piTag "Detail")).filterMap
    (fun det => orElseOpt (lang_text_all (some det))
      (orElseOpt (text_ja (some det)) (get_text_direct (some det))))

/-- `collect_interactions_flat` of 21_sgml2rawdata.py: the summary list and
the flat record list, contraindicated section first, then the caution
section, each in document order of its `Drug` blocks. -/
def collect_interactions_flat (root : Elem) : List String × List InteractionRecord :=
  (collect_summary root,
   (drugsUnder root "ContraIndicatedCombinations").flatMap (recordsForDrug "併用禁忌") ++
   (drugsUnder root "PrecautionsForCombinations").flatMap (recordsForDrug "併用注意"))

-- ============ section locator (31_rawdata2women.py) ============

/-- `local_name` of 31_rawdata2women.py: `tag.split('}')[-1]`. -/
def local_name_aux : List Char → List Char → List Char
  | acc, [] => acc.reverse
  | _, '\x7d' :: rest => local_name_aux [] rest
  | acc, c :: rest => local_name_aux (c :: acc) rest

/-- `local_name` of 31_rawdata2women.py: `tag.split('\x7d')[-1]`, i.e. the
segment after the last closing brace (the whole tag when there is none). -/
def local_name (t : String) : String :=
  ⟨local_name_aux [] t.data⟩

/-- The target tag sets of 31_rawdata2women.py. -/
def PREGNANT_TAGS : List String := ["UseInPregnant", "UseInPregnantWomen", "Pregnant"]

def NURSING_TAGS : List String := ["UseInNursing", "UseInNursingMothers", "Nursing", "BreastFeeding"]

/-- `s.replace("\r\n", "\n").replace("\r", "\n")`. -/
def normCR : List Char → List Char
  | [] => []
  | '\r' :: '\n' :: rest => '\n' :: normCR rest
  | '\r' :: rest => '\n' :: normCR rest
  | c :: rest => c :: normCR rest

/-- `re.sub(p"+", " ", s)` for a character class `p`: each maximal run of
class characters becomes a single space (emitted when the run ends). -/
def collapseBy (p : Char → Bool) : List Char → List Char
  | [] => []
  | c :: rest =>
    if p c then
      match rest with
      | [] => [' ']
      | d :: _ => if p d then collapseBy p rest else ' ' :: collapseBy p rest
    else c :: collapseBy p rest

/-- The class `[ \t　]` of `textnorm`. -/
def isHSpace (c : Char) : Bool := c = ' ' || c = '\t' || c = '　'

/-- A pending run of `n` newlines: runs of three or more become exactly
two (`re.sub(r"\n{3,}", "\n\n", s)`). -/
def emitNL (n : Nat) : List Char :=
  if 3 ≤ n then ['\n', '\n'] else List.replicate n '\n'

def collapseNLAux : Nat → List Char → List Char
  | n, [] => emitNL n
  | n, c :: rest =>
    if c = '\n' then collapseNLAux (n + 1) rest
    else emitNL n ++ c :: collapseNLAux 0 rest

/-- `re.sub(r"\n{3,}", "\n\n", s)`. -/
def collapseNL (l : List Char) : List Char := collapseNLAux 0 l

/-- `textnorm` of 31_rawdata2women.py on a (non-absent) string. -/
def textnorm (s : String) : String :=
  pyStrip ⟨collapseNL (collapseBy isHSpace (normCR s.data))⟩

/-- Python `a or b` where `a`/`b` are `attrib.get` results: an empty first
string is falsy, so the second is used. -/
def pyOrStr (a b : Option String) : Option String :=
  match a with
  | some s => if s = "" then b else some s
  | none => b

/-- The `lang and lang.lower().startswith("ja")` test of
`extract_section_texts`. -/
def jaLang (lang : Option String) : Bool :=
  match lang with
  | none => false
  | some l => (l != "") && strBeginsWith (strLower l) "ja"

/-- The hit collection of `extract_section_texts`: every element of
`root.iter()` (depth-first document order) whose local name is in the
target set. -/
def hitsOf (root : Elem) (target_names : List String) : List Elem :=
  (subtreePre root).filter (fun e => target_names.contains (local_name e.tag))

/-- All `Lang`-local-named descendants (self included) of every hit, in
order. -/
def langNodesOf (hits : List Elem) : List Elem :=
  hits.flatMap (fun h => (subtreePre h).filter (fun n => local_name n.tag == "Lang"))

/-- One iteration of the `Lang` loop of `extract_section_texts`: skip an
empty normalized text, otherwise classify by language attribute
(`xml:lang` or `lang`) into the ja bucket (`true`) or the other bucket. -/
def classifyLang (n : Elem) : Option (Bool × String) :=
  let t := textnorm (itertext n)
  if t = "" then none
  else some (jaLang (pyOrStr (attrGet n xmlLangKey) (attrGet n "lang")), t)

/-- `extract_section_texts` of 31_rawdata2women.py, taking the already
parsed document (`none` stands for absent/unparsable input). -/
def extract_section_texts (xml : Option Elem) (target_names : List String) :
    Option String × Option String :=
  match xml with
  | none => (none, none)
  | some root =>
    match hitsOf root target_names with
    | [] => (none, none)
    | h :: rest =>
      let first_id := attrGet h "id"
      let cls := (langNodesOf (h :: rest)).filterMap classifyLang
      let ja_texts := (cls.filter (fun p => p.1 == true)).map (fun p => p.2)
      let other_texts := (cls.filter (fun p => p.1 == false)).map (fun p => p.2)
      if ja_texts.isEmpty && other_texts.isEmpty then
        (some (textnorm (itertext h)), first_id)
      else
        let parts :=
          (if ja_texts.isEmpty then [] else [String.intercalate "\n\n" (uniq ja_texts)]) ++
          (if other_texts.isEmpty then [] else [String.intercalate "\n\n" (uniq other_texts)])
        (some (pyStrip (String.intercalate "\n\n" parts)), first_id)

-- ============ classification engine (32_label_women_risk.py) ============

/-- The regex fragment language the rule patterns of
32_label_women_risk.py use: literals, character classes, `.*` under
re.DOTALL, concatenation, alternation, `?`, and negative lookahead. -/
inductive RE where
  | lit (s : String)
  | cls (chars : List Char)
  | anyStar
  | seq (a b : RE)
  | alt (a b : RE)
  | opt (a : RE)
  | nla (a : RE)

/-- Match a literal at the head of the input, then continue. -/
def litMatch : List Char → List Char → (List Char → Bool) → Bool
  | [], cs, k => k cs
  | _ :: _, [], _ => false
  | p :: ps, c :: cs, k => p == c && litMatch ps cs k

/-- All suffixes of a character list, longest first. -/
def suffixesOf : List Char → List (List Char)
  | [] => [[]]
  | c :: cs => (c :: cs) :: suffixesOf cs

/-- Backtracking matcher in continuation style: `matchAt r cs k` holds iff
some way of matching `r` at the head of `cs` leaves a remainder accepted
by `k`. Quantifier greediness does not affect this existence semantics,
so it coincides with Python `re` for the lookahead-and-alternation
fragment used here. -/
def matchAt : RE → List Char → (List Char → Bool) → Bool
  | .lit s, cs, k => litMatch s.data cs k
  | .cls chars, cs, k =>
    match cs with
    | [] => false
    | c :: rest => chars.contains c && k rest
  | .anyStar, cs, k => (suffixesOf cs).any k
  | .seq a b, cs, k => matchAt a cs (fun rest => matchAt b rest k)
  | .alt a b, cs, k => matchAt a cs k || matchAt b cs k
  | .opt a, cs, k => matchAt a cs k || k cs
  | .nla a, cs, k => !(matchAt a cs (fun _ => true)) && k cs

/-- `rx.search(s)` truthiness: the pattern matches at some position. -/
def reSearch (r : RE) (s : String) : Bool :=
  (suffixesOf s.data).any (fun cs => matchAt r cs (fun _ => true))

/-- `normalize_for_match` of 32_label_women_risk.py, first stage: the
three single-character replaces (full-width space, CR, LF to space). -/
def nfmPre (s : String) : String :=
  ⟨s.data.map (fun c => if c = '　' || c = '\r' || c = '\n' then ' ' else c)⟩

/-- `normalize_for_match` of 32_label_women_risk.py on a string input. -/
def normalize_for_match (s : String) : String :=
  pyStrip (strReplace (strReplace ⟨collapseBy isPySpace (nfmPre s).data⟩
    "上まわる" "上回る") "上廻る" "上回る")

/-- `classify` of 32_label_women_risk.py: `none` models a non-string
input. A rule is `(score, compiled pattern, tag)`. -/
def classify (text : Option String) (rules : List (Nat × RE × String)) : Nat × String :=
  match text with
  | none => (0, "none")
  | some s =>
    if pyStrip s = "" then (0, "none")
    else
      let t := normalize_for_match s
      match rules.find? (fun r => reSearch r.2.1 t) with
      | some r => (r.1, r.2.2)
      | none => (0, "unclear")

/-- `(投与|使用)`, shared by several branches. -/
def reTouyoShiyou : RE := .alt (.lit "投与") (.lit "使用")

/-- The score-3 pregnancy pattern:
`(禁忌|投与してはならない|使用してはならない|投与しないこと(?!が望ましい)|使用しないこと(?!が望ましい))`. -/
def pregPat3 : RE :=
  .alt (.lit "禁忌")
  (.alt (.lit "投与してはならない")
  (.alt (.lit "使用してはならない")
  (.alt (.seq (.lit "投与しないこと") (.nla (.lit "が望ましい")))
        (.seq (.lit "使用しないこと") (.nla (.lit "が望ましい"))))))

/-- The score-2 pregnancy pattern:
`(投与しないことが望ましい|使用しないことが望ましい|原則.*(投与|使用)しない|(投与|使用)は推奨されない|(投与|使用)を避けることが望ましい|(使用|投与)を回避することが望ましい|可能な限り(投与|使用)を避ける)`. -/
def pregPat2 : RE :=
  .alt (.lit "投与しないことが望ましい")
  (.alt (.lit "使用しないことが望ましい")
  (.alt (.seq (.lit "原則") (.seq .anyStar (.seq reTouyoShiyou (.lit "しない"))))
  (.alt (.seq reTouyoShiyou (.lit "は推奨されない"))
  (.alt (.seq reTouyoShiyou (.lit "を避けることが望ましい"))
  (.alt (.seq (.alt (.lit "使用") (.lit "投与")) (.lit "を回避することが望ましい"))
        (.seq (.lit "可能な限り") (.seq reTouyoShiyou (.lit "を避ける"))))))))

/-- The score-1 pregnancy pattern:
`((治療上の)?(有益性|ベネフィット|利益|利点).*(危険性|リスク).*(上回|凌駕)[るれ]|必要(な|時)?場合に(限り|のみ).*(投与|使用)|やむを得ない場合(に限り|のみ).*(投与|使用)|必要最小限(の用量|の範囲)?(での)?(投与|使用)|慎重に投与)`. -/
def pregPat1 : RE :=
  .alt (.seq (.opt (.lit "治療上の"))
        (.seq (.alt (.lit "有益性") (.alt (.lit "ベネフィット") (.alt (.lit "利益") (.lit "利点"))))
        (.seq .anyStar
        (.seq (.alt (.lit "危険性") (.lit "リスク"))
        (.seq .anyStar
        (.seq (.alt (.lit "上回") (.lit "凌駕")) (.cls ['る', 'れ'])))))))
  (.alt (.seq (.lit "必要")
        (.seq (.opt (.alt (.lit "な") (.lit "時")))
        (.seq (.lit "場合に")
        (.seq (.alt (.lit "限り") (.lit "のみ")) (.seq .anyStar reTouyoShiyou)))))
  (.alt (.seq (.lit "やむを得ない場合")
        (.seq (.alt (.lit "に限り") (.lit "のみ")) (.seq .anyStar reTouyoShiyou)))
  (.alt (.seq (.lit "必要最小限")
        (.seq (.opt (.alt (.lit "の用量") (.lit "の範囲")))
        (.seq (.opt (.lit "での")) reTouyoShiyou)))
        (.lit "慎重に投与"))))

/-- `PREG_RULES` of 32_label_women_risk.py. -/
def PREG_RULES : List (Nat × RE × String) :=
  [(3, pregPat3, "contraindicated"),
   (2, pregPat2, "not_recommended"),
   (1, pregPat1, "benefit_over_risk_or_caution")]

/-- `flags.get(k)` truthiness over the evidence-flag mapping. -/
def flagsGet (flags : List (String × Bool)) (k : String) : Bool :=
  (flags.lookup k).getD false

/-- The pregnancy confidence expression in `main` of
32_label_women_risk.py (its `p_score` comes from `classify`). -/
def preg_conf (p_score : Nat) (preg_flags : List (String × Bool)) : Nat :=
  min 3 ((if p_score == 3 then 3 else if p_score == 2 then 2 else if p_score == 1 then 1 else 0)
    + (if flagsGet preg_flags "has_human_terato" then 1 else 0)
    + (if flagsGet preg_flags "has_animal_terato" then 1 else 0))

/-- The nursing confidence expression in `main` of
32_label_women_risk.py. -/
def nurs_conf (n_score : Nat) (nurs_flags : List (String × Bool)) : Nat :=
  min 3 ((if n_score == 3 then 3 else if n_score == 2 then 2 else if n_score == 1 then 1 else 0)
    + (if flagsGet nurs_flags "milk_transfer_detected" then 1 else 0)
    + (if flagsGet nurs_flags "adverse_infant_effects" then 1 else 0))

-- ============ spec-side definition for the dedup refinement ============

/-- Spec-side restatement of §4.4 step (3) ("deduplicate by first
occurrence: if a normalized label repeats, drop the later repeats,
preserving first-seen order"), to be compared with the source's `uniq`. -/
def firstOccList : List String → List String
  | [] => []
  | x :: xs => x :: firstOccList (xs.filter (fun y => y != x))
termination_by l => l.length
decreasing_by
  simp only [List.length_cons]
  exact Nat.lt_succ_of_le (List.length_filter_le _ _)

-- ============ concrete example documents ============

/-- A `Detail` leaf with direct text. -/
def exDetail (s : String) : Elem := .mk (piTag "Detail") [] (some s) [] none

/-- An `Item` holding one `Detail` leaf. -/
def exItem (s : String) : Elem := .mk (piTag "Item") [] none [exDetail s] none

/-- A `DrugName` with a class label and two individual items (the
flattening-cardinality example of §8). -/
def exDNCYP : Elem :=
  .mk (piTag "DrugName") [] none
    [exDetail "CYP3A阻害剤",
     .mk (piTag "SimpleList") [] none
       [exItem "イトラコナゾール", exItem "クラリスロマイシン"] none] none

def exDrugCYP : Elem := .mk (piTag "Drug") [] none [exDNCYP] none

/-- A `DrugName` whose first `Detail` normalizes to absent (pure noise)
and whose second carries the real label. -/
def exDNNoisy : Elem := .mk (piTag "DrugName") [] none [exDetail "等", exDetail "ABC"] none

def exDrugNoisy : Elem := .mk (piTag "Drug") [] none [exDNNoisy] none

/-- A `Lang` child carrying `xml:lang="ja-JP"`. -/
def exLangJaJP : Elem := .mk (piTag "Lang") [(xmlLangKey, "ja-JP")] (some "テスト") [] none

def exDetailJaJP : Elem := .mk (piTag "Detail") [] none [exLangJaJP] none

/-- A `Lang` child with exact `xml:lang="ja"` and structured content: its
full subtree text ("妊婦 禁忌 注意") differs from its immediate text
("妊婦"). -/
def exLangJa : Elem :=
  .mk (piTag "Lang") [(xmlLangKey, "ja")] (some "妊婦 ")
    [.mk (piTag "Emphasis") [] (some "禁忌") [] (some " 注意")] none

def exDetailJa : Elem := .mk (piTag "Detail") [] none [exLangJa] none

/-- A pregnancy-tagged element (namespace `ns1`), nested one level deep. -/
def exPreg1 : Elem := .mk "\x7bns1\x7dUseInPregnant" [("id", "p1")] none [exLangJaJP] none

/-- A second pregnancy-tagged element (different namespace), shallower but
later in document order. -/
def exPreg2 : Elem := .mk "\x7bns2\x7dPregnant" [("id", "p2")] none [] none

/-- A document with two pregnancy-tagged elements: `exPreg1` comes first
in depth-first document order although it sits deeper. -/
def exDoc : Elem :=
  .mk "root" [] none [.mk "wrap" [] none [exPreg1] none, exPreg2] none

-- ================================ theorems ================================

/-- First-match characterization of `List.find?`. -/
theorem find?_eq_of_first {α : Type} (p : α → Bool) :
    ∀ (xs : List α) (i : Nat) (hi : i < xs.length),
      p (xs.get ⟨i, hi⟩) = true →
      (∀ j (hj : j < i), p (xs.get ⟨j, Nat.lt_trans hj hi⟩) = false) →
      xs.find? p = some (xs.get ⟨i, hi⟩)
  | [], i, hi, _, _ => absurd hi (by simp)
  | x :: xs, 0, _, hp, _ => by
    simpa using List.find?_cons_of_pos xs hp
  | x :: xs, i + 1, hi, hp, hfirst => by
    have h0 : p x = false := hfirst 0 (Nat.succ_pos i)
    rw [List.find?_cons_of_neg xs (by simp [h0])]
    exact find?_eq_of_first p xs i (Nat.lt_of_succ_lt_succ hi) hp
      (fun j hj => hfirst (j + 1) (Nat.succ_lt_succ hj))

/-- First-success characterization of `List.findSome?`. -/
theorem findSome?_eq_of_first {α β : Type} (f : α → Option β) :
    ∀ (xs : List α) (i : Nat) (hi : i < xs.length) (b : β),
      f (xs.get ⟨i, hi⟩) = some b →
      (∀ j (hj : j < i), f (xs.get ⟨j, Nat.lt_trans hj hi⟩) = none) →
      xs.findSome? f = some b
  | [], i, hi, _, _, _ => absurd hi (by simp)
  | x :: xs, 0, _, b, hb, _ => by
    have : f x = some b := hb
    simp [List.findSome?_cons, this]
  | x :: xs, i + 1, hi, b, hb, hfirst => by
    have h0 : f x = none := hfirst 0 (Nat.succ_pos i)
    rw [List.findSome?_cons, h0]
    exact findSome?_eq_of_first f xs i (Nat.lt_of_succ_lt_succ hi) b hb
      (fun j hj => hfirst (j + 1) (Nat.succ_lt_succ hj))

/-- The `out` accumulator of `uniqLoop` is a passive prefix. -/
theorem uniqLoop_out : ∀ (xs seen out : List String),
    uniqLoop seen out xs = out ++ uniqLoop seen [] xs
  | [], seen, out => by simp [uniqLoop]
  | s :: rest, seen, out => by
    by_cases h : seen.contains s
    · simp only [uniqLoop, h, if_true]
      exact uniqLoop_out rest seen out
    · simp only [uniqLoop, h, if_false, List.nil_append]
      rw [uniqLoop_out rest (s :: seen) (out ++ [s]), uniqLoop_out rest (s :: seen) [s]]
      simp

/-- `uniqLoop` with an empty accumulator computes first-occurrence dedup
of the elements not yet seen. -/
theorem uniqLoop_nil_eq : ∀ (xs seen : List String),
    uniqLoop seen [] xs = firstOccList (xs.filter (fun x => !(seen.contains x)))
  | [], seen => by simp [uniqLoop, firstOccList]
  | s :: rest, seen => by
    by_cases h : seen.contains s
    · simp only [uniqLoop, h, if_true, List.filter_cons, Bool.not_true, if_neg]
      simpa [h] using uniqLoop_nil_eq rest seen
    · have hf : seen.contains s = false := Bool.eq_false_iff.mpr h
      have hstep : uniqLoop seen [] (s :: rest) = uniqLoop (s :: seen) [s] rest := by
        simp only [uniqLoop, hf, Bool.false_eq_true, if_false, List.nil_append]
      have hfil : List.filter (fun x => !seen.contains x) (s :: rest) =
          s :: List.filter (fun x => !seen.contains x) rest := by
        simp only [List.filter_cons, hf, Bool.not_false, if_pos]
      rw [hstep, uniqLoop_out rest (s :: seen) [s], uniqLoop_nil_eq rest (s :: seen), hfil,
        firstOccList]
      simp only [List.singleton_append, List.cons.injEq, true_and]
      rw [List.filter_filter]
      refine congrArg firstOccList (List.filter_congr ?_)
      intro x _
      simp only [List.contains_cons, Bool.not_or, bne]

/-- The source's dedup loop equals the spec's first-occurrence dedup. -/
theorem uniq_eq_firstOccList (xs : List String) : uniq xs = firstOccList xs := by
  have h := uniqLoop_nil_eq xs []
  simpa [uniq] using h

/-- Every record a `Drug` block emits carries the block's category. -/
theorem recordsForDrug_category (category : String) (drug : Elem) :
    ∀ r ∈ recordsForDrug category drug, r.category = category := by
  intro r hr
  simp only [recordsForDrug] at hr
  rcases h2 : (extract_partner_group_and_items drug).2 with _ | ⟨p, ps⟩ <;>
    simp only [h2] at hr
  · rcases h1 : (extract_partner_group_and_items drug).1 with _ | g <;>
      simp only [h1] at hr
    · simp at hr
    · simp only [List.mem_singleton] at hr
      subst hr
      rfl
  · simp only [List.mem_map] at hr
    obtain ⟨q, _, hq⟩ := hr
    subst hq
    rfl

/-- Index-wise category split of a concatenation of records. -/
theorem append_category_split (A B : List InteractionRecord)
    (hA : ∀ r ∈ A, r.category = "併用禁忌") (hB : ∀ r ∈ B, r.category = "併用注意") :
    ∀ i (hi : i < (A ++ B).length),
      ((A ++ B).get ⟨i, hi⟩).category = if i < A.length then "併用禁忌" else "併用注意" := by
  intro i hi
  simp only [List.get_eq_getElem]
  by_cases hk : i < A.length
  · rw [if_pos hk, List.getElem_append_left hk]
    exact hA _ (List.getElem_mem hk)
  · rw [if_neg hk, List.getElem_append_right (Nat.le_of_not_lt hk)]
    exact hB _ (List.getElem_mem _)

/-- C1: for every drug-reference block processed by the interaction
flattener, if partner/group extraction yields the items `p :: ps` (N ≥ 1),
exactly one record per item is emitted in order, all sharing the block's
group, symptoms and mechanism; if it yields no items but a non-absent
class label, exactly one record with `partner = group` is emitted; if it
yields neither, no record is emitted. -/
theorem C1_flattening_cardinality (category : String) (drug : Elem) :
    (∀ p ps, (extract_partner_group_and_items drug).2 = p :: ps →
      recordsForDrug category drug = (p :: ps).map (fun q =>
        ⟨q, (extract_partner_group_and_items drug).1,
         (get_symptoms_and_mechanism drug).1, (get_symptoms_and_mechanism drug).2,
         category⟩)) ∧
    (∀ g, (extract_partner_group_and_items drug).2 = [] →
      (extract_partner_group_and_items drug).1 = some g →
      recordsForDrug category drug =
        [⟨g, some g, (get_symptoms_and_mechanism drug).1,
          (get_symptoms_and_mechanism drug).2, category⟩]) ∧
    ((extract_partner_group_and_items drug).2 = [] →
      (extract_partner_group_and_items drug).1 = none →
      recordsForDrug category drug = []) := by
  refine ⟨?_, ?_, ?_⟩
  · intro p ps h2
    simp only [recordsForDrug, h2]
  · intro g h2 h1
    simp only [recordsForDrug, h2, h1]
  · intro h2 h1
    simp only [recordsForDrug, h2, h1]

/-- C1 at the §8 example block: class label `CYP3A阻害剤` with two items
flattens to exactly two records sharing the group, one per item, in
order. -/
theorem C1_flattening_cardinality_witness :
    recordsForDrug "併用禁忌" exDrugCYP =
      [⟨"イトラコナゾール", some "CYP3A阻害剤", none, none, "併用禁忌"⟩,
       ⟨"クラリスロマイシン", some "CYP3A阻害剤", none, none, "併用禁忌"⟩] :=
  ((C1_flattening_cardinality "併用禁忌" exDrugCYP).1
    "イトラコナゾール" ["クラリスロマイシン"] (by decide)).trans (by decide)

/-- C2: for non-empty text, `classify` returns the score and tag of the
first rule in table order whose pattern matches the normalized text. -/
theorem C2_rule_priority (s : String) (rules : List (Nat × RE × String)) (i : Nat)
    (hi : i < rules.length) (hne : pyStrip s ≠ "")
    (hmatch : reSearch (rules.get ⟨i, hi⟩).2.1 (normalize_for_match s) = true)
    (hfirst : ∀ j (hj : j < i),
      reSearch (rules.get ⟨j, Nat.lt_trans hj hi⟩).2.1 (normalize_for_match s) = false) :
    classify (some s) rules = ((rules.get ⟨i, hi⟩).1, (rules.get ⟨i, hi⟩).2.2) := by
  have hf : rules.find? (fun r => reSearch r.2.1 (normalize_for_match s)) =
      some (rules.get ⟨i, hi⟩) :=
    find?_eq_of_first _ rules i hi hmatch hfirst
  simp only [classify, if_neg hne, hf]

/-- C2 at a pregnancy text that matches both the score-3 and the score-1
pattern: `classify` returns the score-3 result. -/
theorem C2_rule_priority_witness :
    classify (some "禁忌。有益性がリスクを上回る") PREG_RULES = (3, "contraindicated") ∧
    reSearch pregPat3 (normalize_for_match "禁忌。有益性がリスクを上回る") = true ∧
    reSearch pregPat1 (normalize_for_match "禁忌。有益性がリスクを上回る") = true := by
  refine ⟨?_, by decide, by decide⟩
  exact (C2_rule_priority "禁忌。有益性がリスクを上回る" PREG_RULES 0 (by decide)
    (by decide) (by decide) (fun j hj => absurd hj (Nat.not_lt_zero j))).trans (by decide)

/-- C3: `classify` never fails and returns deterministic defaults —
`(0, "none")` for absent or whitespace-only text under any table, and
`(0, "unclear")` for non-empty text no rule of the table matches
(in particular under the empty table). -/
theorem C3_classify_defaults :
    (∀ rules, classify none rules = (0, "none")) ∧
    (∀ rules s, pyStrip s = "" → classify (some s) rules = (0, "none")) ∧
    (∀ rules s, pyStrip s ≠ "" →
      (∀ r ∈ rules, reSearch r.2.1 (normalize_for_match s) = false) →
      classify (some s) rules = (0, "unclear")) ∧
    (∀ s, pyStrip s ≠ "" → classify (some s) [] = (0, "unclear")) ∧
    classify (some " 　 ") PREG_RULES = (0, "none") ∧
    classify (some "無関係の文章") PREG_RULES = (0, "unclear") := by
  refine ⟨fun rules => rfl, ?_, ?_, ?_, by decide, by decide⟩
  · intro rules s h
    simp [classify, h]
  · intro rules s h hn
    have hf : (rules.find? fun r => reSearch r.2.1 (normalize_for_match s)) = none :=
      List.find?_eq_none.mpr (fun r hr => by simp [hn r hr])
    simp [classify, h, hf]
  · intro s h
    simp [classify, h]

/-- C4: for every score in [0,3] and every evidence-flag mapping, the
derived confidence is `min 3 (score + boosts)` where `boosts` counts the
two designated flags that are present and true, and it never exceeds 3
(for the pregnancy and the nursing variant alike). -/
theorem C4_confidence_clamped (score : Nat) (hs : score ≤ 3)
    (flags : List (String × Bool)) :
    preg_conf score flags =
      min 3 (score + ((if flagsGet flags "has_human_terato" then 1 else 0)
        + (if flagsGet flags "has_animal_terato" then 1 else 0))) ∧
    preg_conf score flags ≤ 3 ∧
    nurs_conf score flags =
      min 3 (score + ((if flagsGet flags "milk_transfer_detected" then 1 else 0)
        + (if flagsGet flags "adverse_infant_effects" then 1 else 0))) ∧
    nurs_conf score flags ≤ 3 := by
  cases hh : flagsGet flags "has_human_terato" <;>
    cases ha : flagsGet flags "has_animal_terato" <;>
    cases hm : flagsGet flags "milk_transfer_detected" <;>
    cases he : flagsGet flags "adverse_infant_effects" <;>
    interval_cases score <;>
    simp [preg_conf, nurs_conf, hh, ha, hm, he]

/-- C4 at the clamp example: score 3 with both boost flags true still
yields confidence 3. -/
theorem C4_confidence_clamped_witness :
    preg_conf 3 [("has_human_terato", true), ("has_animal_terato", true)] = 3 :=
  ((C4_confidence_clamped 3 (by decide)
    [("has_human_terato", true), ("has_animal_terato", true)]).1).trans (by decide)

/-- C5: `normalize_partner_label` trims surrounding whitespace and
comma-like punctuation; input that trims to exactly one of the noise
tokens 等/など yields absent; a trailing then a leading noise token are
stripped with re-trimming; an empty result yields absent; otherwise the
cleaned string is returned. -/
theorem C5_normalize_label :
    normalize_partner_label (some "イトラコナゾール等") = some "イトラコナゾール" ∧
    normalize_partner_label (some "等") = none ∧
    normalize_partner_label (some "など") = none ∧
    normalize_partner_label (some "  ") = none ∧
    normalize_partner_label none = none ∧
    (∀ s, trimEdges s = "等" → normalize_partner_label (some s) = none) ∧
    (∀ s, trimEdges s = "など" → normalize_partner_label (some s) = none) ∧
    (∀ s t, normalize_partner_label (some s) = some t →
      t ≠ "" ∧ t = pyStrip (dropLeadingEtc (pyStrip (dropTrailingEtc (trimEdges s))))) := by
  refine ⟨by decide, by decide, by decide, by decide, rfl, ?_, ?_, ?_⟩
  · intro s h
    by_cases h0 : s = ""
    · simp [normalize_partner_label, h0]
    · simp [normalize_partner_label, h0, h]
  · intro s h
    by_cases h0 : s = ""
    · simp [normalize_partner_label, h0]
    · simp [normalize_partner_label, h0, h]
  · intro s t h
    by_cases h0 : s = ""
    · simp [normalize_partner_label, h0] at h
    · by_cases h1 : trimEdges s = ""
      · simp [normalize_partner_label, h0, h1] at h
      · by_cases h2 : (trimEdges s == "等" || trimEdges s == "など") = true
        · simp [normalize_partner_label, h0, h1, h2] at h
        · by_cases h3 :
            pyStrip (dropLeadingEtc (pyStrip (dropTrailingEtc (trimEdges s)))) = ""
          · simp [normalize_partner_label, h0, h1, h2, h3] at h
          · simp [normalize_partner_label, h0, h1, h2, h3] at h
            exact ⟨h ▸ h3, h.symm⟩

/-- C7: the item dedup keeps the first occurrence of each label and drops
later repeats, preserving first-seen order — the source loop (`uniq`,
shared by the extractor) equals the spec's first-occurrence dedup, and the
extractor's item list is the first-occurrence dedup of the normalized raw
items. -/
theorem C7_dedup_first_occurrence :
    uniq ["A", "B", "A", "C"] = ["A", "B", "C"] ∧
    (∀ xs, uniq xs = firstOccList xs) ∧
    (∀ drug dn, find1 drug (piTag "DrugName") = some dn →
      (extract_partner_group_and_items drug).2 =
        firstOccList
          ((findall3 dn (piTag "SimpleList") (piTag "Item") (piTag "Detail")).filterMap
            (fun it => detail_text_full (some it)))) := by
  refine ⟨by decide, uniq_eq_firstOccList, ?_⟩
  intro drug dn hdn
  simp only [extract_partner_group_and_items, hdn]
  exact uniq_eq_firstOccList _

/-- C6 counterexample: a `Lang` child whose language attribute is the
case-insensitive prefix match `"ja-JP"` with non-empty subtree text is
NOT accepted by the raw-data text selector — both `lang_text_all` and
`text_ja` return absent instead of the claimed full-subtree text, even
though the section locator's own language test accepts `"ja-JP"`. -/
theorem C6_counterexample :
    attrGet exLangJaJP xmlLangKey = some "ja-JP" ∧
    jaLang (some "ja-JP") = true ∧
    pyStrip (itertext exLangJaJP) = "テスト" ∧
    lang_text_all (some exDetailJaJP) = none ∧
    text_ja (some exDetailJaJP) = none := by
  refine ⟨rfl, by decide, by decide, by decide, by decide⟩

/-- C6 (amended): in the raw-data selector the language attribute must
equal `"ja"` exactly — `lang_text_all` then returns the stripped
full-subtree text of the first such variant while `text_ja` returns only
its immediate text; the case-insensitive prefix acceptance (e.g.
`"ja-JP"`) holds only in the section locator, whose ja bucket takes the
whitespace-normalized full-subtree text. -/
theorem C6_text_selector_amended :
    (∀ d l rest, findall1 d (piTag "Lang") = l :: rest →
      attrGet l xmlLangKey = some "ja" → pyStrip (itertext l) ≠ "" →
      lang_text_all (some d) = some (pyStrip (itertext l))) ∧
    lang_text_all (some exDetailJa) = some "妊婦 禁忌 注意" ∧
    text_ja (some exDetailJa) = some "妊婦" ∧
    jaLang (some "ja-JP") = true ∧
    extract_section_texts (some exDoc) PREGNANT_TAGS = (some "テスト", some "p1") := by
  refine ⟨?_, by decide, by decide, by decide, by decide⟩
  intro d l rest hfl hattr hne
  simp only [lang_text_all, hfl, List.findSome?_cons, hattr]
  simp [hne]

/-- C8 counterexample: in a `DrugName` whose first `Detail` normalizes to
absent (pure noise `"等"`), the group label is taken from the second
`Detail`, so the first label element alone does not determine the
group. -/
theorem C8_counterexample :
    find1 exDrugNoisy (piTag "DrugName") = some exDNNoisy ∧
    (findall1 exDNNoisy (piTag "Detail")).head? = some (exDetail "等") ∧
    detail_text_full (some (exDetail "等")) = none ∧
    (extract_partner_group_and_items exDrugNoisy).1 = some "ABC" := by
  refine ⟨rfl, rfl, by decide, by decide⟩

/-- C8 (amended): the group label is taken from the first `Detail` child
of `DrugName` (in document order) whose full-subtree-selected, normalized
text is non-absent; `Detail` children normalizing to absent are skipped
and everything after the first successful one is ignored. -/
theorem C8_group_label_first_nonabsent (drug dn : Elem)
    (hdn : find1 drug (piTag "DrugName") = some dn)
    (i : Nat) (hi : i < (findall1 dn (piTag "Detail")).length) (s : String)
    (hs : detail_text_full (some ((findall1 dn (piTag "Detail")).get ⟨i, hi⟩)) = some s)
    (hfirst : ∀ j (hj : j < i),
      detail_text_full
        (some ((findall1 dn (piTag "Detail")).get ⟨j, Nat.lt_trans hj hi⟩)) = none) :
    (extract_partner_group_and_items drug).1 = some s := by
  simp only [extract_partner_group_and_items, hdn]
  exact findSome?_eq_of_first _ _ i hi s hs hfirst

/-- C8 amended, at the concrete noisy block: the second `Detail` (`"ABC"`)
is the first non-absent one and becomes the group. -/
theorem C8_group_label_first_nonabsent_witness :
    (extract_partner_group_and_items exDrugNoisy).1 = some "ABC" :=
  C8_group_label_first_nonabsent exDrugNoisy exDNNoisy rfl 1 (by decide) "ABC" (by decide)
    (fun j hj => by
      have hj0 : j = 0 := Nat.lt_one_iff.mp hj
      subst hj0
      exact (by decide :
        detail_text_full
          (some ((findall1 exDNNoisy (piTag "Detail")).get ⟨0, by decide⟩)) = none))

/-- C9: the section locator returns `(absent, absent)` for absent input
and for documents with no matching element, and otherwise reports as
`sourceId` the `id` attribute of the first hit in depth-first document
order; in the concrete two-pregnancy-element document the deeper but
earlier element wins. -/
theorem C9_section_locator_first_hit :
    (∀ targets, extract_section_texts none targets = (none, none)) ∧
    (∀ targets root, hitsOf root targets = [] →
      extract_section_texts (some root) targets = (none, none)) ∧
    (∀ targets root h rest, hitsOf root targets = h :: rest →
      (extract_section_texts (some root) targets).2 = attrGet h "id") ∧
    hitsOf exDoc PREGNANT_TAGS = [exPreg1, exPreg2] ∧
    attrGet exPreg1 "id" = some "p1" ∧
    attrGet exPreg2 "id" = some "p2" ∧
    (extract_section_texts (some exDoc) PREGNANT_TAGS).2 = some "p1" := by
  refine ⟨fun targets => rfl, ?_, ?_, rfl, rfl, rfl, by decide⟩
  · intro targets root h
    simp only [extract_section_texts, h]
  · intro targets root h rest hh
    simp only [extract_section_texts, hh]
    split <;> rfl

/-- C10: in the flat interaction list, the contraindicated section's
records (all with category 併用禁忌) precede the caution section's (all
with category 併用注意), each section contributing its blocks' records in
document order. -/
theorem C10_contra_precede_caution (root : Elem) :
    (collect_interactions_flat root).2 =
      (drugsUnder root "ContraIndicatedCombinations").flatMap (recordsForDrug "併用禁忌") ++
      (drugsUnder root "PrecautionsForCombinations").flatMap (recordsForDrug "併用注意") ∧
    ∃ k, k ≤ ((collect_interactions_flat root).2).length ∧
      ∀ i (hi : i < ((collect_interactions_flat root).2).length),
        (((collect_interactions_flat root).2).get ⟨i, hi⟩).category =
          if i < k then "併用禁忌" else "併用注意" := by
  refine ⟨rfl, ?_⟩
  refine ⟨((drugsUnder root "ContraIndicatedCombinations").flatMap
      (recordsForDrug "併用禁忌")).length, ?_, ?_⟩
  · simp [collect_interactions_flat]
  · have hA : ∀ r ∈ (drugsUnder root "ContraIndicatedCombinations").flatMap
        (recordsForDrug "併用禁忌"), r.category = "併用禁忌" := by
      intro r hr
      obtain ⟨drug, _, hrd⟩ := List.mem_flatMap.mp hr
      exact recordsForDrug_category _ drug r hrd
    have hB : ∀ r ∈ (drugsUnder root "PrecautionsForCombinations").flatMap
        (recordsForDrug "併用注意"), r.category = "併用注意" := by
      intro r hr
      obtain ⟨drug, _, hrd⟩ := List.mem_flatMap.mp hr
      exact recordsForDrug_category _ drug r hrd
    exact append_category_split _ _ hA hB

end SGML
